import Mathlib

/-!
Shallow embedding of the configkit Go package (Averlex/configkit).

The embedding covers:
  - the `LoadResult` enumeration (config.go);
  - `Loader` and `Loader.Load` together with the root-command pre-run hook
    (`buildRootCommand`): argument validation, the version short-circuit,
    config-path resolution, config reading and unmarshalling;
  - the two version-printer helpers (version.go).

The package delegates flag parsing to spf13/cobra and value resolution to
spf13/viper, both pinned dependencies.  The embedding models the exact slice
of their behavior the package exercises:
  - cobra `Execute`: flags are parsed, then the automatically provided help
    flag is checked before any hook runs ("If help is called, regardless of
    other flags, return we want help"), so `PreRunE` only runs when help was
    not triggered; `--flag=false` still marks a flag as changed;
  - viper lookup for a key bound with `BindPFlag` under `AutomaticEnv`:
    a changed flag wins (even with an empty value), otherwise the
    environment variable `<PREFIX>_<KEY>` (uppercased, dots replaced by
    underscores) wins when it is set to a non-empty string (`allowEmptyEnv`
    is false by default, so an empty environment value counts as unset),
    otherwise the flag default applies;
  - viper `ReadInConfig` after `SetConfigFile(path)`: `SetConfigFile` with an
    empty string is a no-op, so an empty resolved path leaves viper in
    search mode, and with no search paths configured that produces a
    `ConfigFileNotFoundError`; a non-empty explicit path is checked for a
    supported extension first (`UnsupportedConfigError` otherwise), then the
    file is opened directly, so a missing file surfaces as a plain file-open
    error and never as `ConfigFileNotFoundError`; an unparsable file is a
    parse error;
  - the environment overlay used by `Unmarshal`: for every key present in
    the loaded file, a non-empty `<PREFIX>_<KEY>` environment value replaces
    the file value;
  - mapstructure `Unmarshal` into the destination: it can only succeed when
    the destination is a non-nil pointer to a struct whose shape the merged
    settings fit (shape compatibility is the `decodeOk` oracle of a world).

Machine observations (filesystem access, argument parsing, printer
invocations, sink writes, the resolved config path) are recorded in the
`Outcome` structure so the control-flow claims are directly stateable.
-/

set_option autoImplicit false

namespace Configkit

/-- Go: `type LoadResult int` with `LoadResultContinue` and `LoadResultStop` (config.go). -/
inductive LoadResult
  | Continue
  | Stop
deriving DecidableEq, Repr

/-- The `cfg any` argument as seen through `reflect.ValueOf(cfg).Kind()`:
a nil interface has kind `Invalid`, a non-pointer value has its own kind,
and every pointer (nil or not, to a struct or not) has kind `Ptr`. -/
inductive Dest
  | nilInterface
  | nonPointer (kind : String)
  | ptr (toStruct : Bool) (isNil : Bool)
deriving DecidableEq, Repr

/-- Whether `reflect.ValueOf(cfg).Kind() == reflect.Ptr`. -/
def Dest.kindIsPtr : Dest → Bool
  | .ptr _ _ => true
  | _ => false

/-- Go `Kind().String()` for the validation error message. -/
def Dest.kindString : Dest → String
  | .nilInterface => "invalid"
  | .nonPointer k => k
  | .ptr _ _ => "ptr"

/-- Command-line flags as parsed by cobra.  `none` means the flag was not
given on the command line (`Changed` is false); `some v` means it was given
with value `v` (`Changed` is true).  A bare `--version` is `some true`;
`--version=false` is `some false`; `--config ""` is `some ""`. -/
structure Args where
  configFlag : Option String
  versionFlag : Option Bool
  helpFlag : Option Bool
deriving DecidableEq, Repr

/-- A file on disk as the viper decoder sees it: present but not parsable
in its declared format, or parsed into a flat key/value tree. -/
inductive FileContent
  | malformed
  | table (entries : List (String × String))
deriving DecidableEq, Repr

/-- One `Load` invocation's ambient world: parsed command-line flags, the
process environment, the file system, and whether the merged settings fit
the destination struct's shape (the mapstructure compatibility oracle). -/
structure World where
  args : Args
  env : List (String × String)
  fs : List (String × FileContent)
  decodeOk : Bool
deriving DecidableEq, Repr

/-- Go `Loader` struct: name, short and long descriptions, fallback config
path and environment prefix, all stored verbatim by `NewLoader`.
`envPfx` models the Go field `envPrefix`. -/
structure Loader where
  name : String
  short : String
  long : String
  configPath : String
  envPfx : String
deriving DecidableEq, Repr

/-- Go `NewLoader(name, short, long, configPath, envPrefix)`: verbatim storage. -/
def NewLoader (name short long configPath envPfx : String) : Loader :=
  ⟨name, short, long, configPath, envPfx⟩

/-- Behavior of the caller-supplied `printVersion func(io.Writer) error`:
whether an invocation reports an error, and whether it writes to the sink. -/
structure PrinterSpec where
  fails : Bool
  writes : Bool
deriving DecidableEq, Repr

/-- First-match association-list lookup (os.LookupEnv over the environment,
afero file lookup over the file system). -/
def lookupKV {β : Type} (k : String) : List (String × β) → Option β
  | [] => none
  | kv :: rest => if kv.1 = k then some kv.2 else lookupKV k rest

/-- ASCII uppercase of one character (environment names are ASCII). -/
def upChar (c : Char) : Char :=
  if 'a' ≤ c ∧ c ≤ 'z' then Char.ofNat (c.toNat - 32) else c

/-- strings.ToUpper restricted to ASCII, as applied to environment names. -/
def toUpperAscii (s : String) : String :=
  String.mk (s.data.map upChar)

/-- The `strings.NewReplacer(".", "_")` key replacer installed by
`SetEnvKeyReplacer`. -/
def replaceDots (s : String) : String :=
  String.mk (s.data.map (fun c => if c = '.' then '_' else c))

/-- viper `mergeWithEnvPrefix` followed by the key replacer: the environment
name consulted for a config key (for example prefix `TESTAPP` and key
`db.url` give `TESTAPP_DB_URL`). -/
def viperEnvKey (pfx key : String) : String :=
  replaceDots (if pfx = "" then toUpperAscii key else toUpperAscii (pfx ++ "_" ++ key))

/-- viper `getEnv`: `os.LookupEnv` where, because `allowEmptyEnv` is false,
a variable set to the empty string counts as unset. -/
def getEnvViper (env : List (String × String)) (key : String) : Option String :=
  match lookupKV key env with
  | some v => if v = "" then none else some v
  | none => none

/-- cast.ToBool on the strings strconv.ParseBool accepts as true; every
other string yields false through `GetBool`'s error-swallowing cast. -/
def goBool (s : String) : Bool :=
  ["1", "t", "T", "TRUE", "true", "True"].contains s

/-- The suffix of a character list after the last occurrence of `sep`
(the whole list when `sep` does not occur). -/
def lastComp (sep : Char) (cs : List Char) : List Char :=
  cs.foldl (fun acc c => if c = sep then [] else acc ++ [c]) []

/-- Go `filepath.Ext` without the leading dot, as viper's `getConfigType`
uses it: the extension of the last path component, empty when that
component has no dot. -/
def pathExt (p : String) : String :=
  let base := lastComp '/' p.data
  if base.contains '.' then String.mk (lastComp '.' base) else ""

/-- viper `SupportedExts`. -/
def supportedExts : List String :=
  ["yaml", "yml", "json", "toml", "hcl", "tfvars", "ini", "properties", "props", "prop", "dotenv", "env"]

/-- The error viper `ReadInConfig` reports, distinguished the way the Go
code can observe it with `errors.As`. -/
inductive ViperReadErr
  | notFound
  | unsupportedType (t : String)
  | pathError (path : String)
  | parse
deriving DecidableEq, Repr

/-- viper `ReadInConfig` after the pre-run hook called `SetConfigFile path`:
`SetConfigFile ""` is a no-op, leaving viper searching its (empty) path
list, which yields `ConfigFileNotFoundError` (`notFound`); for a non-empty
explicit file the extension is validated first, then the file is opened
directly, so a missing file is a plain open error (`pathError`), never
`ConfigFileNotFoundError`; present but undecodable content is `parse`. -/
def readInConfig (fs : List (String × FileContent)) (path : String) :
    Except ViperReadErr (List (String × String)) :=
  if path = "" then Except.error ViperReadErr.notFound
  else if (supportedExts.contains (pathExt path)) = false then
    Except.error (ViperReadErr.unsupportedType (pathExt path))
  else
    match lookupKV path fs with
    | none => Except.error (ViperReadErr.pathError path)
    | some FileContent.malformed => Except.error ViperReadErr.parse
    | some (FileContent.table es) => Except.ok es

/-- The environment overlay `AutomaticEnv` applies when the merged settings
are unmarshalled: every key loaded from the file is replaced by the value
of its `<PREFIX>_<KEY>` environment variable when that is set non-empty. -/
def envOverlay (pfx : String) (env : List (String × String))
    (tr : List (String × String)) : List (String × String) :=
  tr.map (fun kv =>
    (kv.1, match getEnvViper env (viperEnvKey pfx kv.1) with
      | some ev => ev
      | none => kv.2))

/-- viper `GetBool "version"` inside the pre-run hook, for the flag bound
with `BindPFlag` under `AutomaticEnv`: a changed flag wins with its value;
otherwise a non-empty `<PREFIX>_VERSION` environment value is cast to bool;
otherwise the flag default `false`. -/
def getBoolVersion (l : Loader) (w : World) : Bool :=
  match w.args.versionFlag with
  | some b => b
  | none =>
    match getEnvViper w.env (viperEnvKey l.envPfx "version") with
    | some s => goBool s
    | none => false

/-- viper `GetString "config"` inside the pre-run hook: a changed flag wins
with its value (even when that value is empty); otherwise a non-empty
`<PREFIX>_CONFIG` environment value; otherwise the flag default `""`. -/
def getStringConfig (l : Loader) (w : World) : String :=
  match w.args.configFlag with
  | some s => s
  | none => (getEnvViper w.env (viperEnvKey l.envPfx "config")).getD ""

/-- The pre-run hook's path resolution: `configPath := v.GetString("config");
if configPath == "" { configPath = l.configPath }`. -/
def effectiveConfigPath (l : Loader) (w : World) : String :=
  if getStringConfig l w = "" then l.configPath else getStringConfig l w

/-- Errors produced inside the pre-run hook, identified by their
`fmt.Errorf` wrap site. -/
inductive PreRunErr
  | printVersion
  | notFoundBranch (path : String)
  | readConfig (path : String) (cause : ViperReadErr)
  | unmarshal
deriving DecidableEq, Repr

/-- Errors `Load` returns, identified by their `fmt.Errorf` wrap site.
The three validation messages are `cfg must be a pointer to a struct -
got %s`, `printVersion must be a function` and `writer must be a non-nil
writer`; pre-run errors come back wrapped as `execute root command: %w`. -/
inductive LoadErr
  | cfgNotPtr (kind : String)
  | printVersionNil
  | writerNil
  | execute (e : PreRunErr)
deriving DecidableEq, Repr

/-- State of the caller-owned destination struct after `Load` returns. -/
inductive DestState
  | untouched
  | populated (settings : List (String × String))
  | unspecified
deriving DecidableEq, Repr

/-- What one run of the pre-run hook produced and observed. -/
structure PreRunOut where
  err : Option PreRunErr
  dest : DestState
  resolvedPath : Option String
  fsAccessed : Bool
  printerCalls : Nat
  sinkWrites : Nat
deriving DecidableEq, Repr

/-- The pre-run hook `rootCmd.PreRunE` from `buildRootCommand`: check the
version condition first and short-circuit through the printer; otherwise
resolve the config path, read the file and unmarshal the merged settings. -/
def preRun (l : Loader) (dst : Dest) (ps : PrinterSpec) (w : World) : PreRunOut :=
  if getBoolVersion l w then
    ⟨if ps.fails then some PreRunErr.printVersion else none,
      DestState.untouched, none, false, 1, if ps.writes then 1 else 0⟩
  else
    match readInConfig w.fs (effectiveConfigPath l w) with
    | Except.error ViperReadErr.notFound =>
      ⟨some (PreRunErr.notFoundBranch (effectiveConfigPath l w)),
        DestState.untouched, some (effectiveConfigPath l w), false, 0, 0⟩
    | Except.error (ViperReadErr.unsupportedType t) =>
      ⟨some (PreRunErr.readConfig (effectiveConfigPath l w) (ViperReadErr.unsupportedType t)),
        DestState.untouched, some (effectiveConfigPath l w), false, 0, 0⟩
    | Except.error (ViperReadErr.pathError p) =>
      ⟨some (PreRunErr.readConfig (effectiveConfigPath l w) (ViperReadErr.pathError p)),
        DestState.untouched, some (effectiveConfigPath l w), true, 0, 0⟩
    | Except.error ViperReadErr.parse =>
      ⟨some (PreRunErr.readConfig (effectiveConfigPath l w) ViperReadErr.parse),
        DestState.untouched, some (effectiveConfigPath l w), true, 0, 0⟩
    | Except.ok tr =>
      if dst = Dest.ptr true false ∧ w.decodeOk = true then
        ⟨none, DestState.populated (envOverlay l.envPfx w.env tr),
          some (effectiveConfigPath l w), true, 0, 0⟩
      else
        ⟨some PreRunErr.unmarshal, DestState.unspecified,
          some (effectiveConfigPath l w), true, 0, 0⟩

/-- Everything `Load` returned and every machine effect it performed. -/
structure Outcome where
  result : LoadResult
  error : Option LoadErr
  dest : DestState
  resolvedPath : Option String
  fsAccessed : Bool
  argsParsed : Bool
  printerCalls : Nat
  sinkWrites : Nat
deriving DecidableEq, Repr

/-- The tail of `Load` after `cmd.Execute()` ran the pre-run hook: a hook
error comes back wrapped as `execute root command: %w` with `Stop`;
otherwise `Stop` exactly when the help or version flag was changed on the
command line, else `Continue`. -/
def finishLoad (w : World) (pr : PreRunOut) : Outcome :=
  match pr.err with
  | some e =>
    ⟨LoadResult.Stop, some (LoadErr.execute e), pr.dest, pr.resolvedPath,
      pr.fsAccessed, true, pr.printerCalls, pr.sinkWrites⟩
  | none =>
    ⟨if w.args.helpFlag.isSome || w.args.versionFlag.isSome then LoadResult.Stop
      else LoadResult.Continue,
      none, pr.dest, pr.resolvedPath, pr.fsAccessed, true, pr.printerCalls, pr.sinkWrites⟩

/-- Go `Loader.Load(cfg, printVersion, writer)`: eager validation of the
three arguments in order, then `cmd.Execute()`, in which cobra parses the
process arguments and checks the help flag before any hook (help output
goes to the command's standard output, not to `writer`), then the changed
check on the help and version flags. -/
def load (l : Loader) (dst : Dest) (pv : Option PrinterSpec) (wr : Option Unit)
    (w : World) : Outcome :=
  if dst.kindIsPtr = false then
    ⟨LoadResult.Stop, some (LoadErr.cfgNotPtr dst.kindString), DestState.untouched,
      none, false, false, 0, 0⟩
  else
    match pv with
    | none =>
      ⟨LoadResult.Stop, some LoadErr.printVersionNil, DestState.untouched,
        none, false, false, 0, 0⟩
    | some ps =>
      match wr with
      | none =>
        ⟨LoadResult.Stop, some LoadErr.writerNil, DestState.untouched,
          none, false, false, 0, 0⟩
      | some _ =>
        if w.args.helpFlag = some true then
          ⟨LoadResult.Stop, none, DestState.untouched, none, false, true, 0, 0⟩
        else
          finishLoad w (preRun l dst ps w)

/-- A sink (io.Writer): whether writes to it fail, and the chunks written
so far. -/
structure SinkSt where
  failsWrite : Bool
  written : List String
deriving DecidableEq, Repr

/-- Errors a version printer reports: the nil-writer guard, or a failed
sink write. -/
inductive PrintErr
  | nilWriter
  | writeFailed
deriving DecidableEq, Repr

/-- Go `PlainVersionPrinter(version)` applied to a sink (version.go):
guard against a nil writer, then `fmt.Fprintln(w, version)`, which writes
the version string followed by a newline. -/
def plainVersionPrinter (version : String) (w : Option SinkSt) :
    Option SinkSt × Option PrintErr :=
  match w with
  | none => (none, some PrintErr.nilWriter)
  | some s =>
    if s.failsWrite then (some s, some PrintErr.writeFailed)
    else (some ⟨s.failsWrite, s.written ++ [version ++ "\n"]⟩, none)

/-- One hex digit, lowercase, as encoding/json emits in escapes. -/
def hexDigit (n : Nat) : Char :=
  if n < 10 then Char.ofNat (48 + n) else Char.ofNat (87 + n)

/-- encoding/json string escaping with the encoder's default HTML escaping:
quote, backslash, newline, carriage return and tab get two-character
escapes, the angle brackets, ampersand and remaining control characters get
unicode escapes, everything else passes through. -/
def escChar (c : Char) : List Char :=
  if c = '"' then ['\\', '"']
  else if c = '\\' then ['\\', '\\']
  else if c = '\n' then ['\\', 'n']
  else if c = '\r' then ['\\', 'r']
  else if c = '\t' then ['\\', 't']
  else if c = '<' ∨ c = '>' ∨ c = '&' ∨ c.toNat < 32 then
    ['\\', 'u', '0', '0', hexDigit (c.toNat / 16), hexDigit (c.toNat % 16)]
  else [c]

/-- encoding/json escaping of a whole string value. -/
def jsonEscape (s : String) : String :=
  String.mk (s.data.foldr (fun c acc => escChar c ++ acc) [])

/-- The fields encoding/json serializes for the `info` struct of
`JSONVersionPrinter`: `version` (always, tag `json:"version"`) then
`commit` and `date` (tags with `omitempty`, so dropped when empty), in
declaration order. -/
def jsonVersionFields (version commit date : String) : List (String × String) :=
  ("version", version) ::
    ((if commit = "" then [] else [("commit", commit)]) ++
      (if date = "" then [] else [("date", date)]))

/-- Comma-join of already rendered fields. -/
def joinComma : List String → String
  | [] => ""
  | [x] => x
  | x :: y :: rest => x ++ "," ++ joinComma (y :: rest)

/-- One rendered JSON object member. -/
def jsonField (k v : String) : String :=
  "\"" ++ k ++ "\":\"" ++ jsonEscape v ++ "\""

/-- The rendered JSON object for a field list. -/
def jsonEncodeObj (fields : List (String × String)) : String :=
  "\x7b" ++ joinComma (fields.map (fun kv => jsonField kv.1 kv.2)) ++ "\x7d"

/-- Go `JSONVersionPrinter(version, commit, date)` applied to a sink
(version.go): guard against a nil writer, then `json.NewEncoder(w).Encode`
of the captured record, which writes the object followed by a newline. -/
def jsonVersionPrinter (version commit date : String) (w : Option SinkSt) :
    Option SinkSt × Option PrintErr :=
  match w with
  | none => (none, some PrintErr.nilWriter)
  | some s =>
    if s.failsWrite then (some s, some PrintErr.writeFailed)
    else
      (some ⟨s.failsWrite,
        s.written ++ [jsonEncodeObj (jsonVersionFields version commit date) ++ "\n"]⟩, none)

/-- The config-path chain exactly as claim C1 words it: the `--config` flag
value if non-empty, else the `<ENV_PREFIX>_CONFIG` environment value, else
the Loader's fallback `configPath`.  Kept separate from the code-derived
`effectiveConfigPath` so the two can be compared. -/
def specResolvedPath (l : Loader) (w : World) : String :=
  if (w.args.configFlag.getD "") ≠ "" then w.args.configFlag.getD ""
  else
    match getEnvViper w.env (viperEnvKey l.envPfx "config") with
    | some e => e
    | none => l.configPath

/-- The config-path chain the code actually implements (the amended claim
C1): a provided non-empty flag value wins; a flag provided empty falls back
directly to the Loader's `configPath` (the environment is not consulted,
because a changed flag shadows the environment in viper); with no flag, a
non-empty `<ENV_PREFIX>_CONFIG` environment value wins; otherwise the
Loader's `configPath`. -/
def amendedResolvedPath (l : Loader) (w : World) : String :=
  match w.args.configFlag with
  | some s => if s = "" then l.configPath else s
  | none =>
    match getEnvViper w.env (viperEnvKey l.envPfx "config") with
    | some e => e
    | none => l.configPath

end Configkit

namespace Configkit

/-- Loader for the claim C1 counterexample: fallback path fb.yaml. -/
def lX1 : Loader := ⟨"testapp", "Test App", "", "fb.yaml", "TESTAPP"⟩

/-- World for the claim C1 counterexample: the config flag given empty, the
environment override pointing at an existing parsable file. -/
def wX1 : World :=
  ⟨⟨some "", none, none⟩, [("TESTAPP_CONFIG", "env.yaml")],
    [("env.yaml", FileContent.table [("port", "8080")])], true⟩

/-- Loader for the claim C1 witness: fallback path cfg.yaml. -/
def lX1b : Loader := ⟨"testapp", "Test App", "", "cfg.yaml", "TESTAPP"⟩

/-- World for the claim C1 witness: no flags, one field overridden by the
environment. -/
def wX1b : World :=
  ⟨⟨none, none, none⟩, [("TESTAPP_PORT", "7070")],
    [("cfg.yaml", FileContent.table [("port", "8080"), ("log_level", "info")])], true⟩

/-- Loader for the claim C2 theorems. -/
def lX2 : Loader := ⟨"testapp", "Test App", "", "cfg.yaml", "TESTAPP"⟩

/-- World for the claim C2 counterexample: both the version and the help
flag on the command line. -/
def wX2 : World := ⟨⟨none, some true, some true⟩, [], [], true⟩

/-- World for the claim C2 witness: the version flag with a nonexistent
config path. -/
def wX2b : World := ⟨⟨some "nonexistent.yaml", some true, none⟩, [], [], true⟩

/-- Loader for the claim C3 theorems: fallback path cfg.yaml. -/
def lX3 : Loader := ⟨"testapp", "Test App", "", "cfg.yaml", "TESTAPP"⟩

/-- World for the claim C3 counterexample: the version flag explicitly set
to false, a healthy config file at the fallback path. -/
def wX3 : World :=
  ⟨⟨none, some false, none⟩, [], [("cfg.yaml", FileContent.table [("port", "8080")])], true⟩

/-- Loader for the claim C4 theorems. -/
def lX4 : Loader := ⟨"testapp", "Test App", "", "cfg.yaml", "TESTAPP"⟩

/-- World for the claim C4 counterexample: the version flag set. -/
def wX4 : World := ⟨⟨none, some true, none⟩, [], [], true⟩

/-- Loader for the claim C5 theorem: fallback path nonexistent.yaml. -/
def lX5 : Loader := ⟨"testapp", "Test App", "", "nonexistent.yaml", "TESTAPP"⟩

/-- World for the claim C5 theorem: no flags, no environment, no files. -/
def wX5 : World := ⟨⟨none, none, none⟩, [], [], true⟩

/-- Loader for the claim C6 theorems. -/
def lX6 : Loader := ⟨"testapp", "Test App", "A longer description", "cfg.yaml", "TESTAPP"⟩

/-- World for the claim C6 counterexample: help, version and config flags
all on the command line. -/
def wX6 : World := ⟨⟨some "other.yaml", some true, some true⟩, [], [], true⟩

/-- World for the claim C6 witness: the help flag alone. -/
def wX6b : World := ⟨⟨none, none, some true⟩, [], [], true⟩

/-- Loader for the claim C9 witness: fallback path cfg.yaml. -/
def lX9 : Loader := ⟨"testapp", "Test App", "", "cfg.yaml", "TESTAPP"⟩

/-- World for the claim C9 witness: the config flag given empty and the
environment override set to the empty string. -/
def wX9 : World :=
  ⟨⟨some "", none, none⟩, [("TESTAPP_CONFIG", "")],
    [("cfg.yaml", FileContent.table [("port", "8080")])], true⟩

/-- Loader for the claim C10 theorems. -/
def lX10 : Loader := ⟨"testapp", "Test App", "", "cfg.yaml", "TESTAPP"⟩

/-- World for the claim C10 counterexample: no flags at all, the version
key enabled through the environment. -/
def wX10 : World := ⟨⟨none, none, none⟩, [("TESTAPP_VERSION", "true")], [], true⟩

/-- World for the claim C10 witness: the version flag on the command line. -/
def wX10b : World := ⟨⟨none, some true, none⟩, [], [], true⟩

end Configkit

namespace Configkit

/-- Helper: a value returned by the viper environment lookup is never the
empty string (allowEmptyEnv is false). -/
theorem getEnvViper_ne_empty {env : List (String × String)} {k v : String}
    (h : getEnvViper env k = some v) : v ≠ "" := by
  unfold getEnvViper at h
  cases hl : lookupKV k env with
  | none => rw [hl] at h; exact absurd h (by simp)
  | some x =>
    rw [hl] at h
    by_cases hx : x = ""
    · simp [hx] at h
    · simp [hx] at h
      exact h ▸ hx

/-- Helper: the code's path resolution agrees with the amended chain. -/
theorem effectiveConfigPath_eq_amended (l : Loader) (w : World) :
    effectiveConfigPath l w = amendedResolvedPath l w := by
  unfold effectiveConfigPath getStringConfig amendedResolvedPath
  cases hc : w.args.configFlag with
  | some s => by_cases hs : s = "" <;> simp [hs]
  | none =>
    cases he : getEnvViper w.env (viperEnvKey l.envPfx "config") with
    | none => simp
    | some e =>
      have hne : e ≠ "" := getEnvViper_ne_empty he
      simp [Option.getD, hne]

/-- Helper: with the three arguments valid and help not triggered, `Load`
is the pre-run hook followed by the changed-flags check. -/
theorem load_valid_eq (l : Loader) (dst : Dest) (ps : PrinterSpec) (w : World)
    (hk : dst.kindIsPtr = true) (hh : w.args.helpFlag ≠ some true) :
    load l dst (some ps) (some ()) w = finishLoad w (preRun l dst ps w) := by
  simp [load, hk, hh]

/-- Helper: the version branch of the pre-run hook. -/
theorem preRun_version (l : Loader) (dst : Dest) (ps : PrinterSpec) (w : World)
    (hv : getBoolVersion l w = true) :
    preRun l dst ps w =
      ⟨if ps.fails then some PreRunErr.printVersion else none,
        DestState.untouched, none, false, 1, if ps.writes then 1 else 0⟩ := by
  simp [preRun, hv]

/-- Helper: `finishLoad` only decides the result and wraps the error; every
observation field passes through. -/
theorem finishLoad_fields (w : World) (pr : PreRunOut) :
    (finishLoad w pr).resolvedPath = pr.resolvedPath ∧
    (finishLoad w pr).dest = pr.dest ∧
    (finishLoad w pr).fsAccessed = pr.fsAccessed ∧
    (finishLoad w pr).printerCalls = pr.printerCalls ∧
    (finishLoad w pr).sinkWrites = pr.sinkWrites ∧
    (finishLoad w pr).argsParsed = true := by
  unfold finishLoad
  cases pr.err <;> simp

/-- Helper: on the config branch the pre-run hook records the resolved path. -/
theorem preRun_config_resolvedPath (l : Loader) (dst : Dest) (ps : PrinterSpec) (w : World)
    (hv : getBoolVersion l w = false) :
    (preRun l dst ps w).resolvedPath = some (effectiveConfigPath l w) := by
  unfold preRun
  rw [hv]
  simp only [Bool.false_eq_true, if_false]
  cases hread : readInConfig w.fs (effectiveConfigPath l w) with
  | error e => cases e <;> simp
  | ok tr =>
    by_cases hd : dst = Dest.ptr true false ∧ w.decodeOk = true <;> simp [hd]

/-- Helper: per-key value of the environment overlay: the environment wins
when set non-empty, otherwise the file value stands. -/
theorem envOverlay_lookup (pfx : String) (env : List (String × String))
    (k : String) (tr : List (String × String)) :
    lookupKV k (envOverlay pfx env tr) =
      (lookupKV k tr).map (fun fv => (getEnvViper env (viperEnvKey pfx k)).getD fv) := by
  induction tr with
  | nil => rfl
  | cons hd tl ih =>
    unfold envOverlay at ih ⊢
    by_cases hkk : hd.1 = k
    · subst hkk
      simp only [List.map_cons, lookupKV, if_pos rfl]
      cases getEnvViper env (viperEnvKey pfx hd.1) <;> simp [Option.getD]
    · simp only [List.map_cons, lookupKV, if_neg hkk]
      exact ih

end Configkit

namespace Configkit

/-- Claim C7: for every version string, the function returned by
PlainVersionPrinter writes exactly the version string followed by a line
terminator to the sink; it returns the write error if the sink write
fails, and returns an InvalidArgument error without writing when the sink
is nil. -/
theorem plainVersionPrinter_spec (v : String) (s : SinkSt) :
    plainVersionPrinter v none = (none, some PrintErr.nilWriter) ∧
    (s.failsWrite = true →
      plainVersionPrinter v (some s) = (some s, some PrintErr.writeFailed)) ∧
    (s.failsWrite = false →
      plainVersionPrinter v (some s) = (some ⟨false, s.written ++ [v ++ "\n"]⟩, none)) := by
  refine ⟨rfl, fun h => ?_, fun h => ?_⟩ <;> simp [plainVersionPrinter, h]

/-- Witness for claim C7: the plain printer on a healthy empty sink writes
the single chunk made of the version and a newline. -/
theorem plainVersionPrinter_spec_witness :
    plainVersionPrinter "v1.0.0" (some ⟨false, []⟩) =
      (some ⟨false, ["v1.0.0" ++ "\n"]⟩, none) :=
  (plainVersionPrinter_spec "v1.0.0" ⟨false, []⟩).2.2 rfl

/-- Claim C8: the function returned by JSONVersionPrinter serializes the
version, commit and date as a field-name-tagged record; the version field
is always present and first, while the commit and date fields are omitted
exactly when their strings are empty; the failure semantics match the
plain printer (write error on a failing sink, InvalidArgument on a nil
sink). -/
theorem jsonVersionPrinter_spec (v c d : String) (s : SinkSt) :
    (jsonVersionFields v c d).head? = some ("version", v) ∧
    lookupKV "commit" (jsonVersionFields v c d) = (if c = "" then none else some c) ∧
    lookupKV "date" (jsonVersionFields v c d) = (if d = "" then none else some d) ∧
    jsonVersionPrinter v c d none = (none, some PrintErr.nilWriter) ∧
    (s.failsWrite = true →
      jsonVersionPrinter v c d (some s) = (some s, some PrintErr.writeFailed)) ∧
    (s.failsWrite = false →
      jsonVersionPrinter v c d (some s) =
        (some ⟨false, s.written ++
          [jsonEncodeObj (jsonVersionFields v c d) ++ "\n"]⟩, none)) := by
  refine ⟨rfl, ?_, ?_, rfl, fun h => ?_, fun h => ?_⟩
  · by_cases hc : c = "" <;> by_cases hd : d = "" <;>
      simp [jsonVersionFields, lookupKV, hc, hd]
  · by_cases hc : c = "" <;> by_cases hd : d = "" <;>
      simp [jsonVersionFields, lookupKV, hc, hd]
  · simp [jsonVersionPrinter, h]
  · simp [jsonVersionPrinter, h]

/-- Witness for claim C8: with an empty commit the commit field is absent,
and a healthy sink receives the encoded record followed by a newline. -/
theorem jsonVersionPrinter_spec_witness :
    lookupKV "commit" (jsonVersionFields "v1.0.0" "" "2025-04-05") = none ∧
    jsonVersionPrinter "v1.0.0" "" "2025-04-05" (some ⟨false, []⟩) =
      (some ⟨false, [jsonEncodeObj (jsonVersionFields "v1.0.0" "" "2025-04-05") ++ "\n"]⟩,
        none) := by
  refine ⟨?_, ?_⟩
  · have h := (jsonVersionPrinter_spec "v1.0.0" "" "2025-04-05" ⟨false, []⟩).2.1
    simpa using h
  · have h := (jsonVersionPrinter_spec "v1.0.0" "" "2025-04-05" ⟨false, []⟩).2.2.2.2.2 rfl
    simpa using h

end Configkit

namespace Configkit

/-- Claim C4 (amended): when the destination value is not of pointer kind
(a nil interface or any non-pointer value), or the version printer is nil,
or the sink is nil, Load returns Stop with the matching descriptive
validation error, eagerly: no filesystem access, no argument parsing, no
printer invocation, no sink write, no mutation.  (The code's reflect check
is on kind only, so nil pointers and pointers to non-structs pass it.) -/
theorem load_validation_amended (l : Loader) (dst : Dest) (pv : Option PrinterSpec)
    (wr : Option Unit) (w : World)
    (h : dst.kindIsPtr = false ∨ pv = none ∨ wr = none) :
    (load l dst pv wr w).result = LoadResult.Stop ∧
    ((load l dst pv wr w).error = some (LoadErr.cfgNotPtr dst.kindString) ∨
      (load l dst pv wr w).error = some LoadErr.printVersionNil ∨
      (load l dst pv wr w).error = some LoadErr.writerNil) ∧
    (load l dst pv wr w).fsAccessed = false ∧
    (load l dst pv wr w).argsParsed = false ∧
    (load l dst pv wr w).printerCalls = 0 ∧
    (load l dst pv wr w).sinkWrites = 0 ∧
    (load l dst pv wr w).dest = DestState.untouched ∧
    (load l dst pv wr w).resolvedPath = none := by
  by_cases hk : dst.kindIsPtr = false
  · simp [load, hk]
  · cases pv with
    | none => simp [load, hk]
    | some ps =>
      cases wr with
      | none => simp [load, hk]
      | some u =>
        rcases h with h | h | h
        · exact absurd h hk
        · exact Option.noConfusion h
        · exact Option.noConfusion h

/-- Witness for claim C4 (amended): a by-value struct destination is
rejected eagerly with the pointer-kind error. -/
theorem load_validation_witness :
    (load lX4 (Dest.nonPointer "struct") (some ⟨false, true⟩) (some ()) wX4).result =
      LoadResult.Stop ∧
    (load lX4 (Dest.nonPointer "struct") (some ⟨false, true⟩) (some ()) wX4).argsParsed =
      false :=
  ⟨(load_validation_amended lX4 (Dest.nonPointer "struct") (some ⟨false, true⟩)
      (some ()) wX4 (Or.inl rfl)).1,
    (load_validation_amended lX4 (Dest.nonPointer "struct") (some ⟨false, true⟩)
      (some ()) wX4 (Or.inl rfl)).2.2.2.1⟩

/-- Counterexample to claim C4 as stated: a non-nil pointer to a non-struct
is not "a non-nil pointer to a structure", yet Load does not fail eagerly:
with the version flag set it parses the arguments, invokes the printer and
returns Stop with no error at all. -/
theorem load_validation_counterexample :
    (Dest.ptr false false).kindIsPtr = true ∧
    load lX4 (Dest.ptr false false) (some ⟨false, true⟩) (some ()) wX4 =
      ⟨LoadResult.Stop, none, DestState.untouched, none, false, true, 1, 1⟩ :=
  ⟨rfl, rfl⟩

/-- Claim C6 (amended): with valid arguments and the help flag triggered,
Load returns (Stop, nil) with nothing else done: no config file access, no
path resolution, no version-printer invocation and no sink write, even
when the version flag is also set - cobra's help check runs before any
hook, so help takes priority over version. -/
theorem load_help_amended (l : Loader) (dst : Dest) (ps : PrinterSpec) (w : World)
    (hk : dst.kindIsPtr = true) (hh : w.args.helpFlag = some true) :
    load l dst (some ps) (some ()) w =
      ⟨LoadResult.Stop, none, DestState.untouched, none, false, true, 0, 0⟩ := by
  simp [load, hk, hh]

/-- Witness for claim C6 (amended): help alone stops gracefully with no
other effect. -/
theorem load_help_witness :
    load lX6 (Dest.ptr true false) (some ⟨false, true⟩) (some ()) wX6b =
      ⟨LoadResult.Stop, none, DestState.untouched, none, false, true, 0, 0⟩ :=
  load_help_amended lX6 (Dest.ptr true false) ⟨false, true⟩ wX6b rfl rfl

/-- Counterexample to claim C6 as stated: with both the help and the
version flag given, the claim's parenthetical says version takes priority
and the printer is invoked; the code never invokes the printer (zero
printer calls), because cobra handles help before the pre-run hook. -/
theorem load_help_counterexample :
    wX6.args.versionFlag = some true ∧
    load lX6 (Dest.ptr true false) (some ⟨false, true⟩) (some ()) wX6 =
      ⟨LoadResult.Stop, none, DestState.untouched, none, false, true, 0, 0⟩ :=
  ⟨rfl, rfl⟩

/-- Claim C2 (amended): with valid arguments, the version flag set true and
the help flag not triggered, the printer is invoked exactly once before
any config-path resolution or file access; on printer success Load returns
(Stop, nil) regardless of what --config names, and on printer failure it
returns Stop with the wrapped print-version error. -/
theorem load_version_amended (l : Loader) (dst : Dest) (ps : PrinterSpec) (w : World)
    (hk : dst.kindIsPtr = true) (hv : w.args.versionFlag = some true)
    (hh : w.args.helpFlag ≠ some true) :
    (load l dst (some ps) (some ()) w).printerCalls = 1 ∧
    (load l dst (some ps) (some ()) w).fsAccessed = false ∧
    (load l dst (some ps) (some ()) w).resolvedPath = none ∧
    (load l dst (some ps) (some ()) w).result = LoadResult.Stop ∧
    (load l dst (some ps) (some ()) w).dest = DestState.untouched ∧
    (ps.fails = false → (load l dst (some ps) (some ()) w).error = none) ∧
    (ps.fails = true →
      (load l dst (some ps) (some ()) w).error =
        some (LoadErr.execute PreRunErr.printVersion)) := by
  rw [load_valid_eq l dst ps w hk hh,
    preRun_version l dst ps w (by simp [getBoolVersion, hv])]
  cases hf : ps.fails <;> simp [finishLoad, hf, hv]

/-- Witness for claim C2 (amended): --version together with a nonexistent
--config path prints once and stops with no error. -/
theorem load_version_witness :
    (load lX2 (Dest.ptr true false) (some ⟨false, true⟩) (some ()) wX2b).printerCalls = 1 ∧
    (load lX2 (Dest.ptr true false) (some ⟨false, true⟩) (some ()) wX2b).fsAccessed = false ∧
    (load lX2 (Dest.ptr true false) (some ⟨false, true⟩) (some ()) wX2b).result =
      LoadResult.Stop ∧
    (load lX2 (Dest.ptr true false) (some ⟨false, true⟩) (some ()) wX2b).error = none := by
  have h := load_version_amended lX2 (Dest.ptr true false) ⟨false, true⟩ wX2b rfl rfl
    (by decide)
  exact ⟨h.1, h.2.1, h.2.2.2.1, h.2.2.2.2.2.1 rfl⟩

/-- Counterexample to claim C2 as stated: the version flag is set, yet the
printer is never invoked, because the help flag is also given and cobra
resolves help before any hook runs. -/
theorem load_version_counterexample :
    wX2.args.versionFlag = some true ∧
    (load lX2 (Dest.ptr true false) (some ⟨false, true⟩) (some ()) wX2).printerCalls = 0 ∧
    load lX2 (Dest.ptr true false) (some ⟨false, true⟩) (some ()) wX2 =
      ⟨LoadResult.Stop, none, DestState.untouched, none, false, true, 0, 0⟩ :=
  ⟨rfl, rfl, rfl⟩

end Configkit

namespace Configkit

/-- Claim C9: when the config flag resolves to the empty string (absent or
explicitly empty) and the config-path environment variable is unset or
explicitly set to the empty string, the empty override is treated as
absent and Load resolves the Loader's fallback configPath. -/
theorem load_empty_override (l : Loader) (dst : Dest) (ps : PrinterSpec) (w : World)
    (hk : dst.kindIsPtr = true) (hh : w.args.helpFlag ≠ some true)
    (hv : getBoolVersion l w = false)
    (hf : w.args.configFlag = none ∨ w.args.configFlag = some "")
    (he : lookupKV (viperEnvKey l.envPfx "config") w.env = none ∨
      lookupKV (viperEnvKey l.envPfx "config") w.env = some "") :
    effectiveConfigPath l w = l.configPath ∧
    (load l dst (some ps) (some ()) w).resolvedPath = some l.configPath := by
  have hpath : effectiveConfigPath l w = l.configPath := by
    unfold effectiveConfigPath getStringConfig
    rcases hf with hf | hf
    · have henv : getEnvViper w.env (viperEnvKey l.envPfx "config") = none := by
        unfold getEnvViper
        rcases he with he | he <;> simp [he]
      simp [hf, henv]
    · simp [hf]
  refine ⟨hpath, ?_⟩
  rw [load_valid_eq l dst ps w hk hh, (finishLoad_fields w (preRun l dst ps w)).1,
    preRun_config_resolvedPath l dst ps w hv, hpath]

/-- Witness for claim C9: config flag given empty, environment override set
to the empty string; the fallback path is resolved and read. -/
theorem load_empty_override_witness :
    effectiveConfigPath lX9 wX9 = "cfg.yaml" ∧
    (load lX9 (Dest.ptr true false) (some ⟨false, true⟩) (some ()) wX9).resolvedPath =
      some "cfg.yaml" :=
  load_empty_override lX9 (Dest.ptr true false) ⟨false, true⟩ wX9 rfl (by decide) rfl
    (Or.inr rfl) (Or.inr rfl)

/-- Claim C1 (amended): with valid arguments, no version or help flag and
the version key not enabled through the environment, Load resolves exactly
the path given by: a provided non-empty --config flag value; the fallback
configPath when the flag was provided empty (a changed flag shadows the
environment in viper, so the environment is skipped then); otherwise a
non-empty <ENV_PREFIX>_CONFIG environment value; otherwise the fallback
configPath.  When the file at that path loads and the merged settings fit
the destination, the destination is populated with the file tree overlaid
by the environment, where per key the environment value wins over the file
value exactly when it is set non-empty (there are no per-key flags or
per-key Loader defaults). -/
theorem load_precedence_amended (l : Loader) (dst : Dest) (ps : PrinterSpec) (w : World)
    (hk : dst.kindIsPtr = true) (hv : w.args.versionFlag = none)
    (hh : w.args.helpFlag = none) (hgb : getBoolVersion l w = false) :
    (load l dst (some ps) (some ()) w).resolvedPath = some (effectiveConfigPath l w) ∧
    effectiveConfigPath l w = amendedResolvedPath l w ∧
    (∀ tr, readInConfig w.fs (effectiveConfigPath l w) = Except.ok tr →
      dst = Dest.ptr true false → w.decodeOk = true →
      (load l dst (some ps) (some ()) w).result = LoadResult.Continue ∧
      (load l dst (some ps) (some ()) w).dest =
        DestState.populated (envOverlay l.envPfx w.env tr)) ∧
    (∀ k tr, lookupKV k (envOverlay l.envPfx w.env tr) =
      (lookupKV k tr).map
        (fun fv => (getEnvViper w.env (viperEnvKey l.envPfx k)).getD fv)) := by
  have hh' : w.args.helpFlag ≠ some true := by rw [hh]; exact Option.noConfusion
  have hload := load_valid_eq l dst ps w hk hh'
  refine ⟨?_, effectiveConfigPath_eq_amended l w, ?_, fun k tr => envOverlay_lookup _ _ _ _⟩
  · rw [hload, (finishLoad_fields w (preRun l dst ps w)).1,
      preRun_config_resolvedPath l dst ps w hgb]
  · intro tr hread hdst hdec
    have hpre : preRun l dst ps w =
        ⟨none, DestState.populated (envOverlay l.envPfx w.env tr),
          some (effectiveConfigPath l w), true, 0, 0⟩ := by
      unfold preRun
      rw [hgb]
      simp only [Bool.false_eq_true, if_false]
      rw [hread]
      simp [hdst, hdec]
    rw [hload, hpre]
    simp [finishLoad, hh, hv]

/-- Witness for claim C1 (amended): no flags, a file with two keys, one of
them overridden by the environment; Load continues with the merged
settings. -/
theorem load_precedence_witness :
    (load lX1b (Dest.ptr true false) (some ⟨false, true⟩) (some ()) wX1b).result =
      LoadResult.Continue ∧
    (load lX1b (Dest.ptr true false) (some ⟨false, true⟩) (some ()) wX1b).dest =
      DestState.populated [("port", "7070"), ("log_level", "info")] := by
  have h := (load_precedence_amended lX1b (Dest.ptr true false) ⟨false, true⟩ wX1b
    rfl rfl rfl rfl).2.2.1 [("port", "8080"), ("log_level", "info")] rfl rfl rfl
  exact ⟨h.1, h.2.trans (by rfl)⟩

/-- Counterexample to claim C1 as stated: the --config flag is provided
with the empty value and the environment override names an existing
parsable file; the claimed chain picks the environment path, but Load
resolves the fallback path and fails on it, never reading the environment
path. -/
theorem load_precedence_counterexample :
    specResolvedPath lX1 wX1 = "env.yaml" ∧
    (load lX1 (Dest.ptr true false) (some ⟨false, true⟩) (some ()) wX1).resolvedPath =
      some "fb.yaml" ∧
    (load lX1 (Dest.ptr true false) (some ⟨false, true⟩) (some ()) wX1).error =
      some (LoadErr.execute (PreRunErr.readConfig "fb.yaml"
        (ViperReadErr.pathError "fb.yaml"))) ∧
    ("env.yaml" : String) ≠ "fb.yaml" :=
  ⟨rfl, rfl, rfl, by decide⟩

/-- Claim C5 (the code evaluated at the failing input): with the fallback
path nonexistent.yaml and no overrides, Load stops with the generic
read-error wrap around the resolved path and its file-open cause; the
dedicated config-file-not-found wrap is not produced, because viper only
reports ConfigFileNotFoundError in search mode (empty resolved path),
never for an explicitly set file. -/
theorem load_missing_file_bug :
    load lX5 (Dest.ptr true false) (some ⟨false, true⟩) (some ()) wX5 =
      ⟨LoadResult.Stop,
        some (LoadErr.execute (PreRunErr.readConfig "nonexistent.yaml"
          (ViperReadErr.pathError "nonexistent.yaml"))),
        DestState.untouched, some "nonexistent.yaml", true, true, 0, 0⟩ ∧
    (∀ p : String,
      (load lX5 (Dest.ptr true false) (some ⟨false, true⟩) (some ()) wX5).error ≠
        some (LoadErr.execute (PreRunErr.notFoundBranch p))) := by
  refine ⟨rfl, fun p => ?_⟩
  have h : (load lX5 (Dest.ptr true false) (some ⟨false, true⟩) (some ()) wX5).error =
      some (LoadErr.execute (PreRunErr.readConfig "nonexistent.yaml"
        (ViperReadErr.pathError "nonexistent.yaml"))) := rfl
  rw [h]
  simp

end Configkit

namespace Configkit

/-- Claim C3 (amended): every error return of Load carries result Stop, so
Continue never pairs with an error; and after any non-error return the
destination is either untouched or fully populated with the loaded file
tree overlaid by the environment - never the partially-mutated state.
(The original pairing fails in two corners: an explicit --version=false or
--help=false loads the config and still returns Stop with a populated
destination, and a truthy <PREFIX>_VERSION environment variable with no
flags prints the version and returns Continue with an untouched
destination.) -/
theorem load_invariant_amended (l : Loader) (dst : Dest) (pv : Option PrinterSpec)
    (wr : Option Unit) (w : World) :
    ((load l dst pv wr w).error.isSome = true →
      (load l dst pv wr w).result = LoadResult.Stop) ∧
    ((load l dst pv wr w).error = none →
      (load l dst pv wr w).dest = DestState.untouched ∨
      ∃ tr, readInConfig w.fs (effectiveConfigPath l w) = Except.ok tr ∧
        (load l dst pv wr w).dest = DestState.populated (envOverlay l.envPfx w.env tr)) := by
  by_cases hk : dst.kindIsPtr = false
  · simp [load, hk]
  · cases pv with
    | none => simp [load, hk]
    | some ps =>
      cases wr with
      | none => simp [load, hk]
      | some u =>
        have hk' : dst.kindIsPtr = true := by simpa using hk
        by_cases hh : w.args.helpFlag = some true
        · simp [load, hk', hh]
        · rw [load_valid_eq l dst ps w hk' hh]
          by_cases hv : getBoolVersion l w = true
          · rw [preRun_version l dst ps w hv]
            cases hf : ps.fails <;> simp [finishLoad, hf]
          · have hv' : getBoolVersion l w = false := by simpa using hv
            unfold preRun
            rw [hv']
            simp only [Bool.false_eq_true, if_false]
            cases hread : readInConfig w.fs (effectiveConfigPath l w) with
            | error e => cases e <;> simp [finishLoad]
            | ok tr =>
              by_cases hd : dst = Dest.ptr true false ∧ w.decodeOk = true
              · simp only [if_pos hd, finishLoad]
                refine ⟨by simp, fun _ => Or.inr ⟨tr, rfl, by simp⟩⟩
              · simp [if_neg hd, finishLoad]

/-- Witness for claim C3 (amended): a non-error return whose destination is
fully populated from the merged sources. -/
theorem load_invariant_witness :
    (load lX3 (Dest.ptr true false) (some ⟨false, true⟩) (some ()) wX3).dest =
      DestState.untouched ∨
    ∃ tr, readInConfig wX3.fs (effectiveConfigPath lX3 wX3) = Except.ok tr ∧
      (load lX3 (Dest.ptr true false) (some ⟨false, true⟩) (some ()) wX3).dest =
        DestState.populated (envOverlay lX3.envPfx wX3.env tr) :=
  (load_invariant_amended lX3 (Dest.ptr true false) (some ⟨false, true⟩) (some ()) wX3).2
    rfl

/-- Counterexample to claim C3 as stated: with --version=false the config
file is loaded into the destination, yet Load returns Stop without error,
so result Stop coexists with a mutated destination. -/
theorem load_invariant_counterexample :
    (load lX3 (Dest.ptr true false) (some ⟨false, true⟩) (some ()) wX3).result =
      LoadResult.Stop ∧
    (load lX3 (Dest.ptr true false) (some ⟨false, true⟩) (some ()) wX3).error = none ∧
    (load lX3 (Dest.ptr true false) (some ⟨false, true⟩) (some ()) wX3).dest =
      DestState.populated [("port", "8080")] :=
  ⟨rfl, rfl, rfl⟩

/-- Claim C10 (amended): Load writes to the output sink only through the
version printer, hence only when the version condition evaluates true (the
version flag set true, or - with the flag absent - a truthy
<PREFIX>_VERSION environment value) and help is not triggered; on the help
path and on every config path, successful or failing, the sink receives
nothing. -/
theorem load_sink_amended (l : Loader) (dst : Dest) (pv : Option PrinterSpec)
    (wr : Option Unit) (w : World)
    (h : (load l dst pv wr w).sinkWrites ≠ 0) :
    getBoolVersion l w = true ∧ w.args.helpFlag ≠ some true ∧
    (load l dst pv wr w).printerCalls = 1 := by
  by_cases hk : dst.kindIsPtr = false
  · simp [load, hk] at h
  · cases pv with
    | none => simp [load, hk] at h
    | some ps =>
      cases wr with
      | none => simp [load, hk] at h
      | some u =>
        have hk' : dst.kindIsPtr = true := by simpa using hk
        by_cases hh : w.args.helpFlag = some true
        · simp [load, hk', hh] at h
        · rw [load_valid_eq l dst ps w hk' hh] at h ⊢
          by_cases hv : getBoolVersion l w = true
          · refine ⟨hv, hh, ?_⟩
            rw [(finishLoad_fields w (preRun l dst ps w)).2.2.2.1,
              preRun_version l dst ps w hv]
          · have hv' : getBoolVersion l w = false := by simpa using hv
            exfalso
            apply h
            rw [(finishLoad_fields w (preRun l dst ps w)).2.2.2.2.1]
            unfold preRun
            rw [hv']
            simp only [Bool.false_eq_true, if_false]
            cases hread : readInConfig w.fs (effectiveConfigPath l w) with
            | error e => cases e <;> simp
            | ok tr =>
              by_cases hd : dst = Dest.ptr true false ∧ w.decodeOk = true <;> simp [hd]

/-- Witness for claim C10 (amended): with the version flag set and a
writing printer, the sink receives exactly the printer's write. -/
theorem load_sink_witness :
    getBoolVersion lX10 wX10b = true ∧
    (load lX10 (Dest.ptr true false) (some ⟨false, true⟩) (some ()) wX10b).printerCalls =
      1 := by
  have h := load_sink_amended lX10 (Dest.ptr true false) (some ⟨false, true⟩) (some ())
    wX10b (by decide)
  exact ⟨h.1, h.2.2⟩

/-- Counterexample to claim C10 as stated: with no flags at all, a truthy
TESTAPP_VERSION environment variable makes the pre-run hook invoke the
printer, so the sink is written although the version flag is not set (and
Load even returns Continue). -/
theorem load_sink_counterexample :
    wX10.args.versionFlag = none ∧
    (load lX10 (Dest.ptr true false) (some ⟨false, true⟩) (some ()) wX10).sinkWrites = 1 ∧
    (load lX10 (Dest.ptr true false) (some ⟨false, true⟩) (some ()) wX10).result =
      LoadResult.Continue :=
  ⟨rfl, rfl, rfl⟩

end Configkit
